import Mathlib

/-!
Verification development for the trip-assistant orchestrator
(`src/orchestrator.py`): location extraction (spaCy NER path with a
regex fallback), keyword intent detection, and agent dispatch.

The embedding models Python strings at the character-list level with
ASCII case semantics: `str.lower`, `str.strip`, `str.split`, `in`
(substring), `str.find`, slicing, and the `re` constructs actually used
by the three fallback patterns (`\b`, literals, character classes,
greedy/lazy `+`, `?`, alternation, a single capture group, `$`, and the
`re.IGNORECASE` flag) with Python's leftmost-then-backtracking-priority
match order.  The external collaborators are parameters: the spaCy
pipeline becomes an abstract entity function (`NLPModel`), and the two
downstream agents become arbitrary functions `String → String`.
-/

/-! ## Python string primitives (ASCII model) -/

/-- ASCII whitespace recognized by Python's `str.strip`, `str.split` and `\s`. -/
def isPySpace (c : Char) : Bool :=
  c = ' ' || c = '\t' || c = '\n' || c = '\r' || c = Char.ofNat 11 || c = Char.ofNat 12

/-- ASCII letter, the class `[A-Za-z]`. -/
def isAsciiLetter (c : Char) : Bool :=
  (65 ≤ c.toNat && c.toNat ≤ 90) || (97 ≤ c.toNat && c.toNat ≤ 122)

/-- ASCII upper-case letter, the class `[A-Z]` without `re.IGNORECASE`. -/
def isUpperAZ (c : Char) : Bool :=
  65 ≤ c.toNat && c.toNat ≤ 90

/-- Python `\w` on ASCII: letters, digits, underscore. -/
def isWordChar (c : Char) : Bool :=
  isAsciiLetter c || (48 ≤ c.toNat && c.toNat ≤ 57) || c = '_'

/-- ASCII lower-casing of one character, Python `str.lower` per character. -/
def lowerChar (c : Char) : Char :=
  if h : 65 ≤ c.toNat ∧ c.toNat ≤ 90 then
    Char.ofNatAux (c.toNat + 32) (Or.inl (by omega))
  else c

/-- Python `str.lower` (ASCII model). -/
def strLower (s : String) : String :=
  String.mk (s.toList.map lowerChar)

/-- Python `str.strip()` on a character list. -/
def stripList (l : List Char) : List Char :=
  ((l.dropWhile isPySpace).reverse.dropWhile isPySpace).reverse

/-- Python `str.strip()`. -/
def pyStrip (s : String) : String :=
  String.mk (stripList s.toList)

/-- Python `str.split()` (split on whitespace runs, dropping empties). -/
def splitWsAux : List Char → List Char → List String
  | [], acc => if acc.isEmpty then [] else [String.mk acc.reverse]
  | c :: rest, acc =>
    if isPySpace c then
      if acc.isEmpty then splitWsAux rest []
      else String.mk acc.reverse :: splitWsAux rest []
    else splitWsAux rest (c :: acc)

/-- Python `str.split()`. -/
def pySplitWs (s : String) : List String :=
  splitWsAux s.toList []

/-- Python `sep.join(xs)`. -/
def joinSep (sep : String) : List String → String
  | [] => ""
  | [x] => x
  | x :: y :: xs => x ++ sep ++ joinSep sep (y :: xs)

/-- Does `hay` start with `needle`? -/
def startsWithList : List Char → List Char → Bool
  | _, [] => true
  | [], _ :: _ => false
  | c :: cs, d :: ds => c = d && startsWithList cs ds

/-- Substring test on character lists (Python `needle in hay`). -/
def hasSubList : List Char → List Char → Bool
  | hay, needle =>
    startsWithList hay needle ||
      match hay with
      | [] => false
      | _ :: t => hasSubList t needle

/-- Python substring containment `needle in hay`. -/
def pyContains (hay needle : String) : Bool :=
  hasSubList hay.toList needle.toList

/-- Index of the first occurrence of `needle` in `hay`, if any. -/
def findSubList : List Char → List Char → Option Nat
  | hay, needle =>
    if startsWithList hay needle then some 0
    else
      match hay with
      | [] => none
      | _ :: t => (findSubList t needle).map (· + 1)

/-- Python `hay.find(needle)`: first index or `-1`. -/
def pyFind (hay needle : String) : Int :=
  match findSubList hay.toList needle.toList with
  | some n => (n : Int)
  | none => -1

/-- Python slice `s[:i]`, including negative-index semantics. -/
def pySliceTo (s : String) (i : Int) : String :=
  if i < 0 then String.mk (s.toList.take (s.toList.length - min s.toList.length i.natAbs))
  else String.mk (s.toList.take i.toNat)

/-- Python `s.replace(old, new)` for single-character patterns. -/
def pyReplaceChar (old new : Char) (s : String) : String :=
  String.mk (s.toList.map (fun c => if c = old then new else c))

/-! ## A backtracking regex engine for the fallback patterns

The abstract syntax covers exactly the constructs in the three source
patterns.  `reM` enumerates parses in Python `re`'s preference order
(alternatives left first, greedy prefers longer, lazy prefers shorter),
so the head of the list is the parse Python commits to. -/

/-- Regex abstract syntax.  `lit ic w` is a literal word, matched
case-insensitively when `ic` (the `re.IGNORECASE` flag) is true. -/
inductive RE where
  | lit (ic : Bool) (w : List Char)
  | cls (p : Char → Bool)
  | seq (a b : RE)
  | alt (a b : RE)
  | opt (a : RE)
  | plusL (p : Char → Bool)
  | plusG (p : Char → Bool)
  | wordB
  | lineEnd
  | grp (a : RE)

/-- One engine outcome: remaining input, previous character, group-1 capture. -/
abbrev ReK := List Char → Option Char → Option (List Char) → List (List Char × Option Char × Option (List Char))

/-- Match a literal word (optionally case-insensitive), then continue. -/
def litRun (ic : Bool) : List Char → List Char → Option Char → Option (List Char) → ReK → List (List Char × Option Char × Option (List Char))
  | [], s, p, c, k => k s p c
  | _ :: _, [], _, _, _ => []
  | w :: ws, ch :: rest, _, c, k =>
    if (if ic then lowerChar ch = lowerChar w else ch = w) then
      litRun ic ws rest (some ch) c k
    else []

/-- Lazy `+` over a character class: consume 1, 2, … characters, shortest
preferred. -/
def plusLRun (pr : Char → Bool) : List Char → Option Char → Option (List Char) → ReK → List (List Char × Option Char × Option (List Char))
  | [], _, _, _ => []
  | ch :: rest, _, c, k =>
    if pr ch then k rest (some ch) c ++ plusLRun pr rest (some ch) c k
    else []

/-- Greedy `+` over a character class: longest consumption preferred. -/
def plusGRun (pr : Char → Bool) : List Char → Option Char → Option (List Char) → ReK → List (List Char × Option Char × Option (List Char))
  | [], _, _, _ => []
  | ch :: rest, _, c, k =>
    if pr ch then plusGRun pr rest (some ch) c k ++ k rest (some ch) c
    else []

/-- Word boundary `\b`: word-ness differs across the current position. -/
def atBoundary (prev : Option Char) (s : List Char) : Bool :=
  (match prev with | none => false | some c => isWordChar c) ≠
    (match s with | [] => false | c :: _ => isWordChar c)

/-- The engine: enumerate parses of `r` from the given state, feeding each
success to the continuation `k`; results are in `re` preference order. -/
def reM : RE → List Char → Option Char → Option (List Char) → ReK → List (List Char × Option Char × Option (List Char))
  | .lit ic w, s, p, c, k => litRun ic w s p c k
  | .cls pr, s, p, c, k =>
    match s with
    | [] => []
    | ch :: rest => if pr ch then k rest (some ch) c else []
  | .seq a b, s, p, c, k => reM a s p c (fun s' p' c' => reM b s' p' c' k)
  | .alt a b, s, p, c, k => reM a s p c k ++ reM b s p c k
  | .opt a, s, p, c, k => reM a s p c k ++ k s p c
  | .plusL pr, s, p, c, k => plusLRun pr s p c k
  | .plusG pr, s, p, c, k => plusGRun pr s p c k
  | .wordB, s, p, c, k => if atBoundary p s then k s p c else []
  | .lineEnd, s, p, c, k => if s.isEmpty || s = ['\n'] then k s p c else []
  | .grp a, s, p, c, k =>
    reM a s p c (fun s' p' _ => k s' p' (some (s.take (s.length - s'.length))))

/-- Python `re.search`: try the pattern at each start position left to
right; at the first position with a match, return the group-1 capture of
the preferred parse. -/
def reSearch (r : RE) : List Char → Option Char → Option (List Char)
  | s, prev =>
    match reM r s prev none (fun s' p' c' => [(s', p', c')]) with
    | (_, _, cap) :: _ => some (cap.getD [])
    | [] =>
      match s with
      | [] => none
      | c :: t => reSearch r t (some c)

/-! ## The three fallback patterns (`extract_location_fallback`, lines 55-59)

`ic = true` compiles them as the source does (with `re.IGNORECASE`, under
which `[A-Z]` matches any ASCII letter); `ic = false` compiles the same
pattern text case-sensitively, which is what the spec's "capitalized
phrase" wording describes. -/

/-- The class `[A-Z]`, honouring the ignore-case flag. -/
def clsUpper (ic : Bool) (c : Char) : Bool :=
  if ic then isAsciiLetter c else isUpperAZ c

/-- The class `[A-Za-z\s]`. -/
def letterOrSpace (c : Char) : Bool :=
  isAsciiLetter c || isPySpace c

/-- The class `[,.!?]`. -/
def isTermPunct (c : Char) : Bool :=
  c = ',' || c = '.' || c = '!' || c = '?'

/-- Literal word from a string. -/
def litS (ic : Bool) (w : String) : RE :=
  .lit ic w.toList

/-- `(?:visit|go|travel|trip)`. -/
def cueRE (ic : Bool) : RE :=
  .alt (litS ic "visit") (.alt (litS ic "go") (.alt (litS ic "travel") (litS ic "trip")))

/-- `(?:visit|go|travel)`. -/
def cue3RE (ic : Bool) : RE :=
  .alt (litS ic "visit") (.alt (litS ic "go") (litS ic "travel"))

/-- `(?:in|at|to|near)`. -/
def prepRE (ic : Bool) : RE :=
  .alt (litS ic "in") (.alt (litS ic "at") (.alt (litS ic "to") (litS ic "near")))

/-- `\s+` (greedy). -/
def spacesRE : RE := .plusG isPySpace

/-- `(?:[,.!?]|$)`. -/
def termRE : RE := .alt (.cls isTermPunct) .lineEnd

/-- Pattern 1: `\b(?:visit|go|travel|trip)\s+(?:some\s+)?(?:places\s+)?(?:in|at|to|near)\s+([A-Z][A-Za-z\s]+?)(?:[,.!?]|$)`. -/
def pat1 (ic : Bool) : RE :=
  .seq .wordB (.seq (cueRE ic) (.seq spacesRE (.seq (.opt (.seq (litS ic "some") spacesRE))
    (.seq (.opt (.seq (litS ic "places") spacesRE)) (.seq (prepRE ic) (.seq spacesRE
      (.seq (.grp (.seq (.cls (clsUpper ic)) (.plusL letterOrSpace))) termRE)))))))

/-- Pattern 2: `\b(?:in|at|to|near)\s+([A-Z][A-Za-z\s]+?)(?:[,.!?]|$)`. -/
def pat2 (ic : Bool) : RE :=
  .seq .wordB (.seq (prepRE ic) (.seq spacesRE
    (.seq (.grp (.seq (.cls (clsUpper ic)) (.plusL letterOrSpace))) termRE)))

/-- Pattern 3: `\b(?:visit|go|travel)\s+(?:to\s+)?([A-Z][A-Za-z]+(?:\s+[A-Z][A-Za-z]+)?)(?:[,.!?]|$)`. -/
def pat3 (ic : Bool) : RE :=
  .seq .wordB (.seq (cue3RE ic) (.seq spacesRE (.seq (.opt (.seq (litS ic "to") spacesRE))
    (.seq (.grp (.seq (.cls (clsUpper ic)) (.seq (.plusG isAsciiLetter)
      (.opt (.seq spacesRE (.seq (.cls (clsUpper ic)) (.plusG isAsciiLetter)))))))
      termRE))))

/-! ## Last-resort capitalized-token scan (lines 76-82)

`re.findall(r"[A-Z][a-zA-Z]+(?:\s+[A-Z][a-zA-Z]+)*", text_norm)` — no
ignore-case flag here, and since nothing follows the greedy pieces the
match is maximal munch.  `findCapsAux` mirrors `findall`'s
non-overlapping left-to-right scan; the fuel only bounds recursion depth
and is chosen generously. -/

/-- Maximal-munch match of `[A-Z][a-zA-Z]+` at the head of the input. -/
def capWordStart : List Char → Option (List Char × List Char)
  | [] => none
  | c :: rest =>
    if isUpperAZ c then
      let letters := rest.takeWhile isAsciiLetter
      if letters.isEmpty then none
      else some (c :: letters, rest.dropWhile isAsciiLetter)
    else none

/-- Maximal-munch match of `(?:\s+[A-Z][a-zA-Z]+)*`. -/
def capStar : Nat → List Char → List Char × List Char
  | 0, s => ([], s)
  | fuel + 1, s =>
    let sp := s.takeWhile isPySpace
    if sp.isEmpty then ([], s)
    else
      match capWordStart (s.dropWhile isPySpace) with
      | none => ([], s)
      | some (w, r2) =>
        let (more, r3) := capStar fuel r2
        (sp ++ w ++ more, r3)

/-- Match of the whole findall pattern at the head of the input. -/
def capMatchStart (fuel : Nat) (s : List Char) : Option (List Char × List Char) :=
  match capWordStart s with
  | none => none
  | some (w, r) =>
    let (more, r2) := capStar fuel r
    some (w ++ more, r2)

/-- `re.findall` scan: non-overlapping matches, left to right. -/
def findCapsAux : Nat → List Char → List (List Char)
  | 0, _ => []
  | _ + 1, [] => []
  | fuel + 1, a :: rest =>
    match capMatchStart fuel (a :: rest) with
    | some (m, r) => m :: findCapsAux fuel r
    | none => findCapsAux fuel rest

/-- All matches of `[A-Z][a-zA-Z]+(?:\s+[A-Z][a-zA-Z]+)*` in the text. -/
def findCaps (l : List Char) : List (List Char) :=
  findCapsAux (2 * l.length + 2) l

/-- The `NON_LOCATIONS` stoplist (line 78). -/
def NON_LOCATIONS : List String :=
  ["ok", "yes", "no", "hi", "hey", "hello", "thanks", "i"]

/-- The loop `for cap in reversed(capitals)` (lines 80-82); the argument
is already reversed. -/
def pickCap : List (List Char) → Option String
  | [] => none
  | c :: rest =>
    if NON_LOCATIONS.contains (String.mk (c.map lowerChar)) then pickCap rest
    else some (String.mk (c.map lowerChar))

/-! ## `extract_location_fallback` (lines 47-84) -/

/-- The `filler_words` list (line 67). -/
def filler_words : List String :=
  ["some", "places", "any", "the", "many", "few", "several"]

/-- One iteration of the pattern loop (lines 61-74): search, strip the
group, drop filler words, rejoin, and accept only when longer than 2. -/
def tryPattern (r : RE) (text_clean : String) : Option String :=
  match reSearch r text_clean.toList none with
  | none => none
  | some cap =>
    let candidate := pyStrip (String.mk cap)
    let words := (pySplitWs candidate).filter (fun w => !(filler_words.contains (strLower w)))
    let candidate := pyStrip (joinSep " " words)
    if candidate ≠ "" ∧ candidate.length > 2 then some (strLower candidate) else none

/-- `extract_location_fallback` (lines 47-84).  Note `text.replace("'", "'")`
on line 51 replaces an ASCII apostrophe with an ASCII apostrophe. -/
def extract_location_fallback (text : String) : Option String :=
  let text_norm := pyReplaceChar (Char.ofNat 39) (Char.ofNat 39) text
  let text_clean := pyStrip text_norm
  match tryPattern (pat1 true) text_clean with
  | some r => some r
  | none =>
    match tryPattern (pat2 true) text_clean with
    | some r => some r
    | none =>
      match tryPattern (pat3 true) text_clean with
      | some r => some r
      | none => pickCap (findCaps text_norm.toList).reverse

/-! ## `extract_location_nlp` (lines 15-44)

The spaCy pipeline is modelled as an abstract function from a text to
its entity list (text plus label); `nlp = None` is the `none` case. -/

/-- A spaCy entity: its surface text and its label (`ent.text`, `ent.label_`). -/
structure SpacyEnt where
  text : String
  label : String
deriving DecidableEq

/-- The loaded spaCy pipeline, abstracted to the data the code reads. -/
def NLPModel : Type := String → List SpacyEnt

/-- The `location_keywords` list (line 31). -/
def locKeywords : List String :=
  ["in", "at", "to", "near", "visit", "go", "travel", "trip"]

/-- `[ent.text for ent in doc.ents if ent.label_ in ["GPE", "LOC"]]` (line 26). -/
def gpeLocTexts (f : NLPModel) (text : String) : List String :=
  ((f text).filter (fun e => ["GPE", "LOC"].contains e.label)).map SpacyEnt.text

/-- The preference loop (lines 33-38): the first entity whose first
occurrence in the lowercased text is preceded by some keyword. -/
def pickLocation (text_lower : String) : List String → Option String
  | [] => none
  | loc :: rest =>
    let loc_pos := pyFind text_lower (strLower loc)
    let pfx := pySliceTo text_lower loc_pos
    if locKeywords.any (fun k => pyContains pfx k) then some (strLower loc)
    else pickLocation text_lower rest

/-- `extract_location_nlp` (lines 15-44). -/
def extract_location_nlp (m : Option NLPModel) (text : String) : Option String :=
  match m with
  | none => extract_location_fallback text
  | some f =>
    let locations := gpeLocTexts f text
    match locations.getLast? with
    | none => extract_location_fallback text
    | some lastLoc =>
      match pickLocation (strLower text) locations with
      | some l => some l
      | none => some (strLower lastLoc)

/-- `extract_location` (lines 87-91). -/
def extract_location (m : Option NLPModel) (text : String) : Option String :=
  extract_location_nlp m text

/-! ## `detect_intent` (lines 94-119) -/

/-- The `weather_keywords` list (lines 100-103). -/
def weather_keywords : List String :=
  ["weather", "temperature", "climate", "rain", "snow",
   "sunny", "forecast", "humidity", "wind"]

/-- The `places_keywords` list (lines 105-109). -/
def places_keywords : List String :=
  ["places", "attractions", "visit", "tourist", "things to do",
   "plan my trip", "plan my visit", "sightseeing", "travel guide",
   "where to go"]

/-- `any(k in q for k in weather_keywords)` on the lowercased query. -/
def wantsWeatherKeyword (query : String) : Bool :=
  weather_keywords.any (fun k => pyContains (strLower query) k)

/-- `any(k in q for k in places_keywords)` on the lowercased query. -/
def wantsPlacesKeyword (query : String) : Bool :=
  places_keywords.any (fun k => pyContains (strLower query) k)

/-- `detect_intent` (lines 94-119): keyword flags, with the
default-to-places rule when neither keyword set matches. -/
def detect_intent (query : String) : Bool × Bool :=
  let wants_weather := wantsWeatherKeyword query
  let wants_places := wantsPlacesKeyword query
  if !(wants_weather || wants_places) then (wants_weather, true)
  else (wants_weather, wants_places)

/-! ## `handle_user_query` (lines 122-150)

The two downstream agents are opaque collaborators, passed in as
arbitrary functions `w` (`get_weather_info`) and `p` (`get_places_info`). -/

/-- Python truthiness of `location : str | None` under `if not location`. -/
def pyFalsyOptStr : Option String → Bool
  | none => true
  | some s => s = ""

/-- The fixed no-location message (line 134). -/
def noLocationMsg : String :=
  "I\x27m not sure which location you are referring to. Please provide the city name."

/-- The fixed defensive no-intent message (line 148). -/
def noIntentMsg : String :=
  "Please ask about the weather or places to visit for a specific location."

/-- `handle_user_query` (lines 122-150). -/
def handle_user_query (m : Option NLPModel) (w p : String → String) (query : String) : String :=
  if pyFalsyOptStr (extract_location m query) then noLocationMsg
  else
    let location := (extract_location m query).getD ""
    let intents := detect_intent query
    let responses :=
      (if intents.1 then [w location] else []) ++ (if intents.2 then [p location] else [])
    if responses.isEmpty then noIntentMsg
    else joinSep "\n\n" responses

/-- A downstream agent invocation, with its argument. -/
inductive AgentCall where
  | weather (loc : String)
  | places (loc : String)
deriving DecidableEq

/-- The agent invocations `handle_user_query` performs on a query, in
order; they do not depend on what the agents return. -/
def agentCalls (m : Option NLPModel) (query : String) : List AgentCall :=
  if pyFalsyOptStr (extract_location m query) then []
  else
    let location := (extract_location m query).getD ""
    let intents := detect_intent query
    (if intents.1 then [AgentCall.weather location] else []) ++
      (if intents.2 then [AgentCall.places location] else [])

/-- Does a run of `handle_user_query` reach the defensive
`if not responses` branch (lines 146-148)? -/
def reachesNoIntentBranch (m : Option NLPModel) (query : String) : Bool :=
  if pyFalsyOptStr (extract_location m query) then false
  else
    let intents := detect_intent query
    ((if intents.1 then [()] else []) ++ (if intents.2 then [()] else [])).isEmpty

/-- A model is well formed when every entity it reports has non-empty
surface text (spaCy entities are non-empty spans). -/
def wfModel : Option NLPModel → Prop
  | none => True
  | some f => ∀ t e, e ∈ f t → e.text ≠ ""

/-! ## Spec-side definitions

These follow the specification's wording (an ordered first-match
combinator over strategies, the NER preference rule as a `find?`, and a
read-only world threaded through successive calls) and are compared with
the source-derived definitions above. -/

/-- First non-absent result of an ordered list of strategies. -/
def firstSome {α β : Type} (f : α → Option β) : List α → Option β
  | [] => none
  | x :: xs =>
    match f x with
    | some r => some r
    | none => firstSome f xs

/-- The fallback extractor as the spec words it: the ordered regex tier
as a first-match combinator over the three patterns applied to the
trimmed text, then the capitalized-token scan.  With `ic = false` the
patterns match only genuinely capitalized phrases (the spec's
"capitalized phrase ... against the original-case trimmed text"
reading); with `ic = true` they are compiled as the source compiles
them, under `re.IGNORECASE`. -/
def fallbackSpec (ic : Bool) (text : String) : Option String :=
  match firstSome (fun r => tryPattern r (pyStrip text)) [pat1 ic, pat2 ic, pat3 ic] with
  | some r => some r
  | none => pickCap (findCaps text.toList).reverse

/-- The NER preference rule as the spec words it: the first entity whose
first occurrence in the lowercased text has some keyword occurring
earlier, otherwise the last-mentioned entity; always lowercased. -/
def specNerChoice (text_lower : String) (locs : List String) : Option String :=
  match locs.find? (fun loc =>
      locKeywords.any (fun k =>
        pyContains (pySliceTo text_lower (pyFind text_lower (strLower loc))) k)) with
  | some l => some (strLower l)
  | none => locs.getLast?.map strLower

/-- The process-wide state visible to the pipeline: only the read-only
NER model. -/
structure World where
  nlpModel : Option NLPModel

/-- Location extraction as a state-passing call: reads the model, writes
nothing. -/
def runExtract (wld : World) (q : String) : Option String × World :=
  (extract_location wld.nlpModel q, wld)

/-- Intent detection as a state-passing call: touches no state. -/
def runDetect (wld : World) (q : String) : (Bool × Bool) × World :=
  (detect_intent q, wld)

/-- One pipeline pass (extraction then classification), threading the
world through. -/
def runPipeline (wld : World) (q : String) : (Option String × (Bool × Bool)) × World :=
  let (loc, w1) := runExtract wld q
  let (intent, w2) := runDetect w1 q
  ((loc, intent), w2)

/-! ## Helper lemmas -/

theorem toNat_ofNatAux (n : Nat) (h : n.isValidChar) : (Char.ofNatAux n h).toNat = n := rfl

theorem lowerChar_idem (c : Char) : lowerChar (lowerChar c) = lowerChar c := by
  unfold lowerChar
  by_cases h : 65 ≤ c.toNat ∧ c.toNat ≤ 90
  · rw [dif_pos h, dif_neg]
    rw [toNat_ofNatAux]
    omega
  · rw [dif_neg h, dif_neg h]

theorem map_lowerChar_idem (l : List Char) :
    (l.map lowerChar).map lowerChar = l.map lowerChar := by
  induction l with
  | nil => rfl
  | cons a t ih => simp [ih, lowerChar_idem]

theorem strLower_toList (s : String) : (strLower s).toList = s.toList.map lowerChar := rfl

theorem strLower_idem (s : String) : strLower (strLower s) = strLower s := by
  show String.mk (((String.mk (s.toList.map lowerChar)).toList).map lowerChar) = _
  rw [show (String.mk (s.toList.map lowerChar)).toList = s.toList.map lowerChar from rfl,
    map_lowerChar_idem]
  rfl

theorem strLower_length (s : String) : (strLower s).length = s.length := by
  show (String.mk (s.toList.map lowerChar)).length = s.length
  rw [String.length_mk, List.length_map]
  rfl

theorem mk_map_lowerChar_idem (l : List Char) :
    strLower (String.mk (l.map lowerChar)) = String.mk (l.map lowerChar) := by
  show String.mk (((String.mk (l.map lowerChar)).toList).map lowerChar) = _
  rw [show (String.mk (l.map lowerChar)).toList = l.map lowerChar from rfl,
    map_lowerChar_idem]

theorem pyReplaceChar_self (c : Char) (s : String) : pyReplaceChar c c s = s := by
  unfold pyReplaceChar
  have : s.toList.map (fun x => if x = c then c else x) = s.toList := by
    induction s.toList with
    | nil => rfl
    | cons a t ih =>
      simp only [List.map_cons, ih]
      by_cases h : a = c <;> simp [h]
  rw [this]
  rfl

theorem string_ne_of_length_pos {s : String} (h : 0 < s.length) : s ≠ "" := by
  intro he
  rw [he] at h
  simp at h

/-! ## Shared pipeline lemmas -/

theorem detect_intent_fst (q : String) : (detect_intent q).1 = wantsWeatherKeyword q := by
  simp only [detect_intent]
  cases hw : wantsWeatherKeyword q <;> cases hp : wantsPlacesKeyword q <;> simp

theorem detect_intent_not_both_false (q : String) :
    (detect_intent q).1 = true ∨ (detect_intent q).2 = true := by
  unfold detect_intent
  cases hw : wantsWeatherKeyword q <;> cases hp : wantsPlacesKeyword q <;> simp

theorem join_two_ne_of_no_newline {a b msg : String} (hmsg : '\n' ∉ msg.data) :
    a ++ "\n\n" ++ b ≠ msg := by
  intro h
  apply hmsg
  rw [← h]
  rw [String.data_append, String.data_append]
  refine List.mem_append.mpr (Or.inl (List.mem_append.mpr (Or.inr ?_)))
  decide

theorem no_newline_noLocationMsg : '\n' ∉ noLocationMsg.data := by decide

theorem no_newline_noIntentMsg : '\n' ∉ noIntentMsg.data := by decide

/-! ## Claim theorems -/

/-- Claim C1: for a query whose lowercased text contains a weather
keyword and no places keyword, and whose extraction yields a (truthy)
location, the orchestrator invokes only the weather agent and returns
exactly that agent's output, with no blank-line-joined places fragment. -/
theorem C1_weather_only (m : Option NLPModel) (w p : String → String) (q loc : String)
    (hloc : extract_location m q = some loc) (hne : loc ≠ "")
    (hw : wantsWeatherKeyword q = true) (hp : wantsPlacesKeyword q = false) :
    handle_user_query m w p q = w loc ∧ agentCalls m q = [AgentCall.weather loc] := by
  have hdi : detect_intent q = (true, false) := by
    unfold detect_intent
    rw [hw, hp]
    decide
  have hfalsy : pyFalsyOptStr (extract_location m q) = false := by
    rw [hloc]
    simp [pyFalsyOptStr, hne]
  constructor
  · unfold handle_user_query
    rw [hfalsy, hloc, hdi]
    simp [joinSep]
  · unfold agentCalls
    rw [hfalsy, hloc, hdi]
    simp

/-- Witness for C1 at the query "What is the weather in Tokyo" with the
regex fallback extractor and constant agents. -/
theorem C1_weather_only_witness :
    extract_location none "What is the weather in Tokyo" = some "tokyo" ∧
      handle_user_query none (fun _ => "W") (fun _ => "P") "What is the weather in Tokyo" = "W" ∧
      agentCalls none "What is the weather in Tokyo" = [AgentCall.weather "tokyo"] :=
  ⟨by decide,
    (C1_weather_only none (fun _ => "W") (fun _ => "P") "What is the weather in Tokyo" "tokyo"
      (by decide) (by decide) (by decide) (by decide)).1,
    (C1_weather_only none (fun _ => "W") (fun _ => "P") "What is the weather in Tokyo" "tokyo"
      (by decide) (by decide) (by decide) (by decide)).2⟩

/-- Claim C2: for a query whose lowercased text contains both a weather
keyword and a places keyword, and whose extraction yields a (truthy)
location, the result is the weather agent's output, a blank line, then
the places agent's output. -/
theorem C2_both_agents (m : Option NLPModel) (w p : String → String) (q loc : String)
    (hloc : extract_location m q = some loc) (hne : loc ≠ "")
    (hw : wantsWeatherKeyword q = true) (hp : wantsPlacesKeyword q = true) :
    handle_user_query m w p q = w loc ++ "\n\n" ++ p loc ∧
      agentCalls m q = [AgentCall.weather loc, AgentCall.places loc] := by
  have hdi : detect_intent q = (true, true) := by
    unfold detect_intent
    rw [hw, hp]
    decide
  have hfalsy : pyFalsyOptStr (extract_location m q) = false := by
    rw [hloc]
    simp [pyFalsyOptStr, hne]
  constructor
  · unfold handle_user_query
    rw [hfalsy, hloc, hdi]
    simp [joinSep]
  · unfold agentCalls
    rw [hfalsy, hloc, hdi]
    simp

/-- Witness for C2 at "What is the weather and places to visit in Tokyo". -/
theorem C2_both_agents_witness :
    extract_location none "What is the weather and places to visit in Tokyo" = some "tokyo" ∧
      handle_user_query none (fun _ => "W") (fun _ => "P")
        "What is the weather and places to visit in Tokyo" = "W" ++ "\n\n" ++ "P" :=
  ⟨by decide,
    (C2_both_agents none (fun _ => "W") (fun _ => "P")
      "What is the weather and places to visit in Tokyo" "tokyo"
      (by decide) (by decide) (by decide) (by decide)).1⟩

/-- Claim C7: a query with neither weather nor places keywords gets
`wants_weather = false` and the default `wants_places = true`. -/
theorem C7_default_places (q : String) (hw : wantsWeatherKeyword q = false)
    (hp : wantsPlacesKeyword q = false) : detect_intent q = (false, true) := by
  unfold detect_intent
  rw [hw, hp]
  decide

/-- Witness for C7 at "Tell me about Berlin". -/
theorem C7_default_places_witness :
    wantsWeatherKeyword "Tell me about Berlin" = false ∧
      wantsPlacesKeyword "Tell me about Berlin" = false ∧
      detect_intent "Tell me about Berlin" = (false, true) :=
  ⟨by decide, by decide, C7_default_places "Tell me about Berlin" (by decide) (by decide)⟩

/-- Claim C9: one pipeline pass returns the world unchanged, so running
the pipeline twice on the same query (the second pass starting from the
first pass's final world) yields identical results: extraction and
classification are deterministic, side-effect-free functions of the
input and the read-only model. -/
theorem C9_pipeline_deterministic (wld : World) (q : String) :
    (runPipeline ((runPipeline wld q).2) q).1 = (runPipeline wld q).1 ∧
      (runPipeline wld q).2 = wld :=
  ⟨rfl, rfl⟩

/-! ## Shape lemmas for the fallback extractor -/

theorem string_length_pos_of_ne {s : String} (h : s ≠ "") : 0 < s.length := by
  cases s with
  | mk data =>
    cases data with
    | nil => exact absurd rfl h
    | cons a t => simp

theorem strLower_ne_empty {x : String} (h : x ≠ "") : strLower x ≠ "" :=
  string_ne_of_length_pos (by rw [strLower_length]; exact string_length_pos_of_ne h)

theorem tryPattern_some {r : RE} {tc s : String} (h : tryPattern r tc = some s) :
    ∃ cand, s = strLower cand ∧ 2 < cand.length := by
  unfold tryPattern at h
  cases hre : reSearch r tc.toList none with
  | none => rw [hre] at h; exact absurd h (by simp)
  | some cap =>
    rw [hre] at h
    dsimp only at h
    split at h
    · rename_i hcond
      exact ⟨_, (Option.some.inj h).symm, hcond.2⟩
    · exact absurd h (by simp)

theorem pickCap_some {caps : List (List Char)} {s : String} (h : pickCap caps = some s) :
    ∃ c ∈ caps, s = String.mk (c.map lowerChar) := by
  induction caps with
  | nil => exact absurd h (by simp [pickCap])
  | cons a t ih =>
    unfold pickCap at h
    split at h
    · obtain ⟨c, hc, hs⟩ := ih h
      exact ⟨c, List.mem_cons_of_mem _ hc, hs⟩
    · exact ⟨a, List.mem_cons_self a t, (Option.some.inj h).symm⟩

theorem capWordStart_ne_nil {s w r : List Char} (h : capWordStart s = some (w, r)) : w ≠ [] := by
  unfold capWordStart at h
  cases s with
  | nil => exact absurd h (by simp)
  | cons c rest =>
    dsimp only at h
    split at h
    · split at h
      · exact absurd h (by simp)
      · simp only [Option.some.injEq, Prod.mk.injEq] at h
        rw [← h.1]
        simp
    · exact absurd h (by simp)

theorem capMatchStart_ne_nil {fuel : Nat} {s m r : List Char}
    (h : capMatchStart fuel s = some (m, r)) : m ≠ [] := by
  unfold capMatchStart at h
  cases hw : capWordStart s with
  | none => rw [hw] at h; exact absurd h (by simp)
  | some wr =>
    obtain ⟨w, r1⟩ := wr
    rw [hw] at h
    dsimp only at h
    have hwne := capWordStart_ne_nil hw
    cases hcs : capStar fuel r1 with
    | mk more r2 =>
      rw [hcs] at h
      simp only [Option.some.injEq, Prod.mk.injEq] at h
      rw [← h.1]
      simp [hwne]

theorem findCapsAux_mem_ne_nil (fuel : Nat) :
    ∀ (s : List Char) (c : List Char), c ∈ findCapsAux fuel s → c ≠ [] := by
  induction fuel with
  | zero =>
    intro s c hc
    exact absurd hc (by simp [findCapsAux])
  | succ fuel ih =>
    intro s c hc
    cases s with
    | nil => exact absurd hc (by simp [findCapsAux])
    | cons a rest =>
      unfold findCapsAux at hc
      cases hm : capMatchStart fuel (a :: rest) with
      | some mr =>
        obtain ⟨m, r⟩ := mr
        rw [hm] at hc
        rcases List.mem_cons.mp hc with h1 | h2
        · rw [h1]; exact capMatchStart_ne_nil hm
        · exact ih r c h2
      | none =>
        rw [hm] at hc
        exact ih rest c hc

theorem mk_map_lowerChar_ne_empty {c : List Char} (h : c ≠ []) :
    String.mk (c.map lowerChar) ≠ "" := by
  cases c with
  | nil => exact absurd rfl h
  | cons a t =>
    intro he
    have hnil : List.map lowerChar (a :: t) = ([] : List Char) := congrArg String.data he
    simp at hnil

theorem fallback_some {text s : String} (h : extract_location_fallback text = some s) :
    s ≠ "" ∧ strLower s = s := by
  unfold extract_location_fallback at h
  rw [pyReplaceChar_self] at h
  dsimp only at h
  have fromPattern : ∀ {r : RE}, tryPattern r (pyStrip text) = some s → s ≠ "" ∧ strLower s = s := by
    intro r hr
    obtain ⟨cand, hs, hlen⟩ := tryPattern_some hr
    refine ⟨?_, hs ▸ strLower_idem cand⟩
    rw [hs]
    exact string_ne_of_length_pos (by rw [strLower_length]; omega)
  cases h1 : tryPattern (pat1 true) (pyStrip text) with
  | some r1 =>
    rw [h1] at h
    obtain rfl : r1 = s := Option.some.inj h
    exact fromPattern h1
  | none =>
    rw [h1] at h
    cases h2 : tryPattern (pat2 true) (pyStrip text) with
    | some r2 =>
      rw [h2] at h
      obtain rfl : r2 = s := Option.some.inj h
      exact fromPattern h2
    | none =>
      rw [h2] at h
      cases h3 : tryPattern (pat3 true) (pyStrip text) with
      | some r3 =>
        rw [h3] at h
        obtain rfl : r3 = s := Option.some.inj h
        exact fromPattern h3
      | none =>
        rw [h3] at h
        obtain ⟨c, hc, hs⟩ := pickCap_some h
        have hcne : c ≠ [] :=
          findCapsAux_mem_ne_nil _ _ _ (List.mem_reverse.mp hc)
        exact ⟨hs ▸ mk_map_lowerChar_ne_empty hcne, hs ▸ mk_map_lowerChar_idem c⟩

/-! ## Shape lemmas for the NER path -/

theorem pickLocation_some {tl : String} {locs : List String} {s : String}
    (h : pickLocation tl locs = some s) : ∃ loc ∈ locs, s = strLower loc := by
  induction locs with
  | nil => exact absurd h (by simp [pickLocation])
  | cons a t ih =>
    unfold pickLocation at h
    dsimp only at h
    split at h
    · exact ⟨a, List.mem_cons_self a t, (Option.some.inj h).symm⟩
    · obtain ⟨loc, hl, hs⟩ := ih h
      exact ⟨loc, List.mem_cons_of_mem _ hl, hs⟩

theorem gpeLocTexts_mem_ne_empty {f : NLPModel} {text : String}
    (hwf : ∀ t e, e ∈ f t → e.text ≠ "") {x : String} (hx : x ∈ gpeLocTexts f text) :
    x ≠ "" := by
  unfold gpeLocTexts at hx
  obtain ⟨e, he, hex⟩ := List.mem_map.mp hx
  exact hex ▸ hwf text e (List.mem_filter.mp he).1

theorem extract_location_shape (m : Option NLPModel) (q : String) (hwf : wfModel m) :
    ∀ s, extract_location m q = some s → s ≠ "" ∧ strLower s = s := by
  intro s h
  unfold extract_location extract_location_nlp at h
  cases m with
  | none => exact fallback_some h
  | some f =>
    dsimp only at h
    have hwf' : ∀ t e, e ∈ f t → e.text ≠ "" := hwf
    cases hlast : (gpeLocTexts f q).getLast? with
    | none => rw [hlast] at h; exact fallback_some h
    | some lastLoc =>
      rw [hlast] at h
      cases hpick : pickLocation (strLower q) (gpeLocTexts f q) with
      | some l =>
        rw [hpick] at h
        obtain rfl : l = s := Option.some.inj h
        obtain ⟨loc, hl, rfl⟩ := pickLocation_some hpick
        exact ⟨strLower_ne_empty (gpeLocTexts_mem_ne_empty hwf' hl), strLower_idem loc⟩
      | none =>
        rw [hpick] at h
        obtain rfl : strLower lastLoc = s := Option.some.inj h
        have hmem := List.mem_of_getLast?_eq_some hlast
        exact ⟨strLower_ne_empty (gpeLocTexts_mem_ne_empty hwf' hmem), strLower_idem lastLoc⟩

/-! ## Dispatch case analysis for the orchestrator -/

theorem handle_dispatch (m : Option NLPModel) (w p : String → String) (q : String) :
    (pyFalsyOptStr (extract_location m q) = true ∧
      handle_user_query m w p q = noLocationMsg ∧ agentCalls m q = [] ∧
      reachesNoIntentBranch m q = false) ∨
    (∃ loc, extract_location m q = some loc ∧ loc ≠ "" ∧ reachesNoIntentBranch m q = false ∧
      ((detect_intent q = (true, false) ∧ handle_user_query m w p q = w loc ∧
          agentCalls m q = [AgentCall.weather loc]) ∨
       (detect_intent q = (false, true) ∧ handle_user_query m w p q = p loc ∧
          agentCalls m q = [AgentCall.places loc]) ∨
       (detect_intent q = (true, true) ∧
          handle_user_query m w p q = w loc ++ "\n\n" ++ p loc ∧
          agentCalls m q = [AgentCall.weather loc, AgentCall.places loc]))) := by
  cases hfal : pyFalsyOptStr (extract_location m q) with
  | true =>
    left
    refine ⟨rfl, ?_, ?_, ?_⟩
    · unfold handle_user_query
      rw [hfal]
      simp
    · unfold agentCalls
      rw [hfal]
      simp
    · unfold reachesNoIntentBranch
      rw [hfal]
      simp
  | false =>
    right
    cases hex : extract_location m q with
    | none => rw [hex] at hfal; exact absurd hfal (by simp [pyFalsyOptStr])
    | some loc =>
      have hne : loc ≠ "" := by
        rw [hex] at hfal
        simpa [pyFalsyOptStr] using hfal
      refine ⟨loc, rfl, hne, ?_, ?_⟩
      · unfold reachesNoIntentBranch
        rw [hfal]
        rcases detect_intent_not_both_false q with h1 | h2
        · simp [h1]
        · simp [h2]
      · cases h1 : (detect_intent q).1 <;> cases h2 : (detect_intent q).2
        · rcases detect_intent_not_both_false q with hc | hc
          · rw [h1] at hc; exact absurd hc (by simp)
          · rw [h2] at hc; exact absurd hc (by simp)
        · have hdi : detect_intent q = (false, true) := Prod.ext h1 h2
          refine Or.inr (Or.inl ⟨hdi, ?_, ?_⟩)
          · unfold handle_user_query
            rw [hfal, hex, hdi]
            simp [joinSep]
          · unfold agentCalls
            rw [hfal, hex, hdi]
            simp
        · have hdi : detect_intent q = (true, false) := Prod.ext h1 h2
          refine Or.inl ⟨hdi, ?_, ?_⟩
          · unfold handle_user_query
            rw [hfal, hex, hdi]
            simp [joinSep]
          · unfold agentCalls
            rw [hfal, hex, hdi]
            simp
        · have hdi : detect_intent q = (true, true) := Prod.ext h1 h2
          refine Or.inr (Or.inr ⟨hdi, ?_, ?_⟩)
          · unfold handle_user_query
            rw [hfal, hex, hdi]
            simp [joinSep]
          · unfold agentCalls
            rw [hfal, hex, hdi]
            simp

theorem falsy_implies_none {m : Option NLPModel} {q : String} (hwf : wfModel m)
    (hf : pyFalsyOptStr (extract_location m q) = true) : extract_location m q = none := by
  cases hex : extract_location m q with
  | none => rfl
  | some loc =>
    rw [hex] at hf
    have : loc = "" := by simpa [pyFalsyOptStr] using hf
    exact absurd this (extract_location_shape m q hwf loc hex).1

/-- Claim C3: the orchestrator returns the fixed no-location message
exactly when extraction yields the absence marker, and in that case no
agent is invoked, regardless of which intent keywords the query
contains.  The model is assumed well formed (spaCy entities are
non-empty spans) and the opaque agents are assumed not to produce the
fixed message themselves. -/
theorem C3_no_location_message (m : Option NLPModel) (w p : String → String) (q : String)
    (hwf : wfModel m) (hw : ∀ l, w l ≠ noLocationMsg) (hp : ∀ l, p l ≠ noLocationMsg) :
    (handle_user_query m w p q = noLocationMsg ↔ extract_location m q = none) ∧
      (extract_location m q = none → agentCalls m q = []) := by
  rcases handle_dispatch m w p q with ⟨hf, hh, hc, _⟩ | ⟨loc, hex, hne, _, hcase⟩
  · have hnone := falsy_implies_none hwf hf
    exact ⟨⟨fun _ => hnone, fun _ => hh⟩, fun _ => hc⟩
  · constructor
    · constructor
      · intro hh
        exfalso
        rcases hcase with ⟨_, he, _⟩ | ⟨_, he, _⟩ | ⟨_, he, _⟩
        · exact hw loc (he ▸ hh)
        · exact hp loc (he ▸ hh)
        · exact join_two_ne_of_no_newline no_newline_noLocationMsg (he ▸ hh)
      · intro hnone
        rw [hnone] at hex
        exact absurd hex (by simp)
    · intro hnone
      rw [hnone] at hex
      exact absurd hex (by simp)

/-- Witness for C3 at the no-signal query "hello there" (extraction
fails, the fixed message is returned, no agent is called) with constant
agents. -/
theorem C3_no_location_message_witness :
    extract_location none "hello there" = none ∧
      handle_user_query none (fun _ => "W") (fun _ => "P") "hello there" = noLocationMsg ∧
      agentCalls none "hello there" = [] :=
  ⟨by decide,
    (C3_no_location_message none (fun _ => "W") (fun _ => "P") "hello there"
      trivial (fun _ => (by decide : ("W" : String) ≠ noLocationMsg))
      (fun _ => (by decide : ("P" : String) ≠ noLocationMsg))).1.mpr (by decide),
    (C3_no_location_message none (fun _ => "W") (fun _ => "P") "hello there"
      trivial (fun _ => (by decide : ("W" : String) ≠ noLocationMsg))
      (fun _ => (by decide : ("P" : String) ≠ noLocationMsg))).2 (by decide)⟩

/-- Claim C8: the classifier never returns both flags false, so the
orchestrator's defensive no-intent branch is unreachable and (provided
the opaque agents do not themselves produce the fixed prompt) the
prompt message is never returned. -/
theorem C8_defensive_branch_unreachable (m : Option NLPModel) (w p : String → String)
    (q : String) (hw : ∀ l, w l ≠ noIntentMsg) (hp : ∀ l, p l ≠ noIntentMsg) :
    detect_intent q ≠ (false, false) ∧ reachesNoIntentBranch m q = false ∧
      handle_user_query m w p q ≠ noIntentMsg := by
  refine ⟨?_, ?_, ?_⟩
  · intro hc
    rcases detect_intent_not_both_false q with h | h <;> rw [hc] at h <;> simp at h
  · rcases handle_dispatch m w p q with ⟨_, _, _, hr⟩ | ⟨loc, _, _, hr, _⟩ <;> exact hr
  · rcases handle_dispatch m w p q with ⟨_, hh, _, _⟩ | ⟨loc, _, _, _, hcase⟩
    · rw [hh]; decide
    · rcases hcase with ⟨_, hh, _⟩ | ⟨_, hh, _⟩ | ⟨_, hh, _⟩
      · rw [hh]; exact hw loc
      · rw [hh]; exact hp loc
      · rw [hh]; exact join_two_ne_of_no_newline no_newline_noIntentMsg

/-- Witness for C8 at the keyword-less query "hello" with constant agents. -/
theorem C8_defensive_branch_unreachable_witness :
    detect_intent "hello" ≠ (false, false) ∧ reachesNoIntentBranch none "hello" = false ∧
      handle_user_query none (fun _ => "W") (fun _ => "P") "hello" ≠ noIntentMsg :=
  C8_defensive_branch_unreachable none (fun _ => "W") (fun _ => "P") "hello"
    (fun _ => (by decide : ("W" : String) ≠ noIntentMsg))
    (fun _ => (by decide : ("P" : String) ≠ noIntentMsg))

/-- Claim C10: whenever the fallback extractor returns a value, from any
of its tiers, the value is a non-empty string that equals its own
lowercasing; hence the orchestrator's truthiness test on the fallback
result coincides with the absence-marker test. -/
theorem C10_fallback_normalized (text : String) :
    (∀ s, extract_location_fallback text = some s → s ≠ "" ∧ strLower s = s) ∧
      pyFalsyOptStr (extract_location_fallback text) = (extract_location_fallback text).isNone := by
  refine ⟨fun _ h => fallback_some h, ?_⟩
  cases hex : extract_location_fallback text with
  | none => simp [pyFalsyOptStr]
  | some s => simp [pyFalsyOptStr, (fallback_some hex).1]

/-- Witness for C10 at "Weather in Tokyo" (regex tier) and "Tell me
about Berlin" (last-resort tier). -/
theorem C10_fallback_normalized_witness :
    extract_location_fallback "Weather in Tokyo" = some "tokyo" ∧
      ("tokyo" ≠ "" ∧ strLower "tokyo" = "tokyo") ∧
      extract_location_fallback "Tell me about Berlin" = some "berlin" ∧
      ("berlin" ≠ "" ∧ strLower "berlin" = "berlin") :=
  ⟨by decide, (C10_fallback_normalized "Weather in Tokyo").1 "tokyo" (by decide),
    by decide, (C10_fallback_normalized "Tell me about Berlin").1 "berlin" (by decide)⟩

/-! ## Claims C4, C5, C6 -/

/-- Counterexample to C4 as stated: the source passes `re.IGNORECASE`
(line 62), under which `[A-Z]` matches any letter, so the regex tier
accepts an entirely lowercase phrase.  On "go to paris" the code's
fallback returns "paris" from pattern 1, while the spec-worded extractor
(`fallbackSpec false`, whose patterns really require a capitalized
phrase) finds nothing at all. -/
theorem C4_capitalized_counterexample :
    extract_location_fallback "go to paris" = some "paris" ∧
      fallbackSpec false "go to paris" = none :=
  ⟨by decide, by decide⟩

/-- Claim C4, amended: the regex tier applies the three patterns in
order to the trimmed original text, case-insensitively (so the matched
phrase need not be capitalized); the first match wins, filler words are
removed, and the lowercased result is returned only when longer than 2
characters — i.e. the source fallback coincides with the spec-worded
ordered-first-match extractor compiled with the ignore-case flag. -/
theorem C4_regex_tier_amended (text : String) :
    extract_location_fallback text = fallbackSpec true text := by
  simp only [extract_location_fallback, fallbackSpec, firstSome, pyReplaceChar_self]
  cases h1 : tryPattern (pat1 true) (pyStrip text) with
  | some r1 => simp [h1]
  | none =>
    simp only [h1]
    cases h2 : tryPattern (pat2 true) (pyStrip text) with
    | some r2 => simp [h2]
    | none =>
      simp only [h2]
      cases h3 : tryPattern (pat3 true) (pyStrip text) with
      | some r3 => simp [h3]
      | none => simp [h3]

/-- Counterexample to C5 as stated: on the spec's own example
"I want to visit Paris", the regex fallback tier (pattern 2, matching
from the cue "to" with `re.IGNORECASE`) captures "visit Paris" and
returns "visit paris", not "paris". -/
theorem C5_counterexample :
    extract_location none "I want to visit Paris" ≠ some "paris" ∧
      extract_location none "I want to visit Paris" = some "visit paris" :=
  ⟨by decide, by decide⟩

/-- Claim C5, amended: when the NER path is taken and the model finds
the capitalized city as the sole GPE/LOC entity, extraction returns
exactly that city lowercased (e.g. "I want to visit Paris" with a model
tagging "Paris" yields "paris"); on the regex fallback path the
returned phrase may instead include an interposed cue verb, as in
"visit paris". -/
theorem C5_ner_single_entity (f : NLPModel) (text city : String)
    (h : gpeLocTexts f text = [city]) :
    extract_location (some f) text = some (strLower city) := by
  unfold extract_location extract_location_nlp
  dsimp only
  rw [h]
  rw [show ([city] : List String).getLast? = some city from rfl]
  cases hp : pickLocation (strLower text) [city] with
  | some l =>
    simp only [hp]
    obtain ⟨loc, hl, rfl⟩ := pickLocation_some hp
    obtain rfl : loc = city := by simpa using hl
    rfl
  | none => simp only [hp]

/-- Witness for C5 (amended) at "I want to visit Paris" with a model
tagging exactly "Paris" as a GPE entity. -/
theorem C5_ner_single_entity_witness :
    gpeLocTexts (fun _ => [⟨"Paris", "GPE"⟩]) "I want to visit Paris" = ["Paris"] ∧
      extract_location (some (fun _ => [⟨"Paris", "GPE"⟩])) "I want to visit Paris" =
        some "paris" :=
  ⟨by decide, by
    have h := C5_ner_single_entity (fun _ => [⟨"Paris", "GPE"⟩]) "I want to visit Paris"
      "Paris" (by decide)
    rwa [show strLower "Paris" = "paris" from by decide] at h⟩

theorem pickLocation_eq_find (tl : String) (locs : List String) :
    pickLocation tl locs =
      (locs.find? (fun loc =>
        locKeywords.any (fun k =>
          pyContains (pySliceTo tl (pyFind tl (strLower loc))) k))).map strLower := by
  induction locs with
  | nil => rfl
  | cons a t ih =>
    simp only [pickLocation, List.find?]
    cases hb : (locKeywords.any fun k =>
        pyContains (pySliceTo tl (pyFind tl (strLower a))) k) with
    | true => simp [hb]
    | false => simp [hb, ih]

/-- Claim C6: with a model present and a non-empty GPE/LOC entity list,
the NER path returns, lowercased, the first entity whose first
occurrence in the lowercased text is preceded (anywhere earlier) by one
of the location keywords, and otherwise the last-mentioned entity
lowercased; every value it returns is lowercase. -/
theorem C6_ner_preference (f : NLPModel) (text : String) (hne : gpeLocTexts f text ≠ []) :
    extract_location_nlp (some f) text = specNerChoice (strLower text) (gpeLocTexts f text) ∧
      ∀ s, extract_location_nlp (some f) text = some s → strLower s = s := by
  have hmain : extract_location_nlp (some f) text =
      specNerChoice (strLower text) (gpeLocTexts f text) := by
    unfold extract_location_nlp specNerChoice
    dsimp only
    cases hlast : (gpeLocTexts f text).getLast? with
    | none => exact absurd (List.getLast?_eq_none_iff.mp hlast) hne
    | some lastLoc =>
      rw [pickLocation_eq_find]
      cases hf : (gpeLocTexts f text).find? (fun loc =>
          locKeywords.any (fun k =>
            pyContains (pySliceTo (strLower text) (pyFind (strLower text) (strLower loc))) k)) with
      | some l => simp [hf]
      | none => simp [hf, hlast]
  refine ⟨hmain, fun s hs => ?_⟩
  rw [hmain] at hs
  unfold specNerChoice at hs
  cases hf : (gpeLocTexts f text).find? (fun loc =>
      locKeywords.any (fun k =>
        pyContains (pySliceTo (strLower text) (pyFind (strLower text) (strLower loc))) k)) with
  | some l =>
    rw [hf] at hs
    obtain rfl : strLower l = s := Option.some.inj hs
    exact strLower_idem l
  | none =>
    rw [hf] at hs
    obtain ⟨x, _, rfl⟩ := Option.map_eq_some'.mp hs
    exact strLower_idem x

/-- Witness for C6 with a model reporting entities "Hamburg" (GPE) and
"Rome" (LOC) on "fly to Hamburg or Rome": the keyword "to" precedes
"hamburg", so the first entity wins. -/
theorem C6_ner_preference_witness :
    gpeLocTexts (fun _ => [⟨"Hamburg", "GPE"⟩, ⟨"Rome", "LOC"⟩]) "fly to Hamburg or Rome" ≠ [] ∧
      extract_location_nlp (some (fun _ => [⟨"Hamburg", "GPE"⟩, ⟨"Rome", "LOC"⟩]))
          "fly to Hamburg or Rome" =
        specNerChoice (strLower "fly to Hamburg or Rome")
          (gpeLocTexts (fun _ => [⟨"Hamburg", "GPE"⟩, ⟨"Rome", "LOC"⟩]) "fly to Hamburg or Rome") ∧
      extract_location_nlp (some (fun _ => [⟨"Hamburg", "GPE"⟩, ⟨"Rome", "LOC"⟩]))
          "fly to Hamburg or Rome" = some "hamburg" :=
  ⟨by decide,
    (C6_ner_preference (fun _ => [⟨"Hamburg", "GPE"⟩, ⟨"Rome", "LOC"⟩])
      "fly to Hamburg or Rome" (by decide)).1,
    by decide⟩
